import Mathlib

/-!
Verification development for `find_projects/analyse.py`.

The Python module is embedded shallowly: a directory snapshot is an
inductive tree of named entries, file reads are `Except`-valued (a read
either yields the file's text or raises, modelling I/O failure), the
Ollama chat call is an oracle parameter `String → Except String
OllamaResponse`, and the external side effects of `scan_directory`
(temporary-file creation/removal, chat calls) are recorded in an event
trace returned alongside the record.
-/

namespace FindProjects

/-! ### Character and string helpers (embedding Python `str` operations) -/

/-- Embedding of Python `str.strip()` on a character list: drop leading and
trailing whitespace. -/
def pyStrip (l : List Char) : List Char :=
  ((l.dropWhile Char.isWhitespace).reverse.dropWhile Char.isWhitespace).reverse

/-- Split a character list at newline characters.  Embeds iterating over the
lines of a text file (`for line in file`); the newline terminators
themselves are irrelevant to the callers, which strip whitespace from
every line they keep. -/
def splitLinesChars : List Char → List (List Char)
  | [] => [[]]
  | c :: rest =>
    match splitLinesChars rest with
    | [] => [[c]]
    | l :: ls => if c = '\n' then [] :: l :: ls else (c :: l) :: ls

/-- Embedding of `os.path.basename`: the part of the path after the last
slash. -/
def basename (p : String) : String :=
  String.mk ((p.data.reverse.takeWhile (fun c => c ≠ '/')).reverse)

/-- Embedding of `os.path.join` for the simple relative case used by the
program. -/
def joinPath (a b : String) : String := a ++ "/" ++ b

/-! ### `fnmatch` glob matching

Embedding of CPython's `fnmatch.fnmatch` on POSIX (where case
normalisation is the identity): `*` matches any run of characters, `?`
any single character, `[...]` a character class with optional leading `!`
negation, a first-position `]` taken literally, and `a-b` ranges; an
unterminated `[` is a literal character. -/

/-- Scan a character-class body up to the closing `]`, returning the class
contents and the remainder of the pattern. -/
def scanClose : List Char → Option (List Char × List Char)
  | [] => none
  | c :: rest =>
    if c = ']' then some ([], rest)
    else (scanClose rest).map (fun p => (c :: p.1, p.2))

/-- Character-class body after the optional negation: a `]` in first
position is a literal member of the class. -/
def classBody : List Char → Option (List Char × List Char)
  | [] => none
  | c :: rest =>
    if c = ']' then (scanClose rest).map (fun p => (']' :: p.1, p.2))
    else scanClose (c :: rest)

/-- Parse a character class after the opening `[`: negation flag, class
contents, remainder of the pattern; `none` when the class is
unterminated. -/
def classSplit : List Char → Option (Bool × List Char × List Char)
  | [] => none
  | c :: rest =>
    if c = '!' then (classBody rest).map (fun p => (true, p.1, p.2))
    else (classBody (c :: rest)).map (fun p => (false, p.1, p.2))

/-- Membership of a character in a class body, with `a-b` ranges; a `-` at
either end of the body is literal. -/
def classMatch : List Char → Char → Bool
  | a :: '-' :: b :: rest, c => (decide (a ≤ c) && decide (c ≤ b)) || classMatch rest c
  | a :: rest, c => (a == c) || classMatch rest c
  | [], _ => false

theorem scanClose_length : ∀ ps a b, scanClose ps = some (a, b) → b.length < ps.length := by
  intro ps
  induction ps with
  | nil => intro a b h; simp [scanClose] at h
  | cons c rest ih =>
    intro a b h
    rw [scanClose] at h
    split at h
    · cases h
      simp
    · cases hs : scanClose rest with
      | none => rw [hs] at h; simp at h
      | some p =>
        rw [hs] at h
        cases p with
        | mk p1 p2 =>
          simp at h
          obtain ⟨h1, h2⟩ := h
          subst h2
          have := ih p1 p2 hs
          simp only [List.length_cons]
          omega

theorem classBody_length : ∀ ps a b, classBody ps = some (a, b) → b.length < ps.length := by
  intro ps a b h
  cases ps with
  | nil => simp [classBody] at h
  | cons c rest =>
    rw [classBody] at h
    split at h
    · cases hs : scanClose rest with
      | none => rw [hs] at h; simp at h
      | some p =>
        rw [hs] at h
        cases p with
        | mk p1 p2 =>
          simp at h
          obtain ⟨h1, h2⟩ := h
          subst h2
          have := scanClose_length rest p1 p2 hs
          simp only [List.length_cons]
          omega
    · exact scanClose_length (c :: rest) a b h

theorem classSplit_length : ∀ ps n a b, classSplit ps = some (n, a, b) → b.length < ps.length := by
  intro ps n a b h
  cases ps with
  | nil => simp [classSplit] at h
  | cons c rest =>
    rw [classSplit] at h
    split at h
    · cases hb : classBody rest with
      | none => rw [hb] at h; simp at h
      | some p =>
        rw [hb] at h
        cases p with
        | mk p1 p2 =>
          simp at h
          obtain ⟨h1, h2, h3⟩ := h
          subst h3
          have := classBody_length rest p1 p2 hb
          simp only [List.length_cons]
          omega
    · cases hb : classBody (c :: rest) with
      | none => rw [hb] at h; simp at h
      | some p =>
        rw [hb] at h
        cases p with
        | mk p1 p2 =>
          simp at h
          obtain ⟨h1, h2, h3⟩ := h
          subst h3
          exact classBody_length (c :: rest) p1 p2 hb

/-- Recursive glob matcher over pattern and subject character lists,
embedding the regular expression produced by `fnmatch.translate`. -/
def globMatch : List Char → List Char → Bool
  | [], s => s.isEmpty
  | '*' :: ps, s =>
    globMatch ps s ||
      (match s with
       | [] => false
       | _ :: t => globMatch ('*' :: ps) t)
  | '?' :: ps, s =>
    (match s with
     | [] => false
     | _ :: t => globMatch ps t)
  | '[' :: ps, s =>
    (match hc : classSplit ps with
     | none =>
       match s with
       | [] => false
       | c :: t => (c == '[') && globMatch ps t
     | some (neg, items, rest) =>
       match s with
       | [] => false
       | c :: t => (neg != classMatch items c) && globMatch rest t)
  | a :: ps, s =>
    (match s with
     | [] => false
     | c :: t => (a == c) && globMatch ps t)
termination_by p s => p.length + s.length
decreasing_by
  all_goals simp_wf
  all_goals try omega
  · have := classSplit_length _ _ _ _ hc
    omega

/-- Embedding of `fnmatch.fnmatch(name, pattern)` on POSIX. -/
def fnmatchStr (name pattern : String) : Bool :=
  globMatch pattern.data name.data

/-! ### Filesystem snapshot

A directory's contents are a finite tree of named entries; file contents
are `Except`-valued so that a read can raise (Python `open`/`read`
failure).  `Entry`/`EntryList` are mutually inductive so that all
traversals below are structural. -/

mutual
inductive Entry : Type where
  | file (name : String) (content : Except String String)
  | dir (name : String) (children : EntryList)
inductive EntryList : Type where
  | nil
  | cons (head : Entry) (tail : EntryList)
end

/-- Name of a directory entry (`entry.name` in the source). -/
def Entry.name : Entry → String
  | .file n _ => n
  | .dir n _ => n

/-- Look up a plain file by name among a directory's entries, embedding
`os.path.isfile(os.path.join(directory, name))` followed by opening it:
`none` when no file of that name exists, otherwise the `Except`-valued
read. -/
def findFile : EntryList → String → Option (Except String String)
  | .nil, _ => none
  | .cons (.file n c) rest, target => if n = target then some c else findFile rest target
  | .cons (.dir _ _) rest, target => findFile rest target

/-- The fixed candidate list of `read_project_info`. -/
def possible_files : List String :=
  ["README.md", "readme.md", "README.txt", "readme.txt", "pyproject.toml"]

/-- Helper for `read_project_info`: try the candidate names in order. -/
def readFirst (entries : EntryList) : List String → Except String (Option String)
  | [] => .ok none
  | n :: rest =>
    match findFile entries n with
    | some (.ok c) => .ok (some c)
    | some (.error e) => .error e
    | none => readFirst entries rest

/-- Embedding of `read_project_info`: return the text of the first
existing candidate description file, `none` when no candidate exists; a
failing read of an existing candidate raises. -/
def read_project_info (entries : EntryList) : Except String (Option String) :=
  readFirst entries possible_files

/-- Does a raw line start with the comment character `#`
(Python `line.startswith("#")`)? -/
def startsWithHash : List Char → Bool
  | '#' :: _ => true
  | _ => false

/-- Embedding of `get_gitignore_patterns`: `[]` when no `.gitignore` file
exists, otherwise the stripped lines that are non-empty after stripping
and whose raw text does not start with `#`, in file order; a failing read
raises. -/
def get_gitignore_patterns (entries : EntryList) : Except String (List String) :=
  match findFile entries ".gitignore" with
  | none => .ok []
  | some (.error e) => .error e
  | some (.ok content) =>
    .ok (((splitLinesChars content.data).filter
            (fun l => !(pyStrip l).isEmpty && !startsWithHash l)).map
          (fun l => String.mk (pyStrip l)))

/-- Embedding of `should_ignore`: does the path match any of the patterns
under `fnmatch`? -/
def should_ignore (path : String) (patterns : List String) : Bool :=
  patterns.any (fun pat => fnmatchStr path pat)

/-- Embedding of `generate_project_tree_sync`: list the entries in
enumeration order; skip (with their whole subtree) entries whose name
matches an ignore pattern; emit `prefix ++ name` for each kept entry and
splice a recursively generated subtree (indent marker `"|   "`) right
after a kept directory's own line. -/
def generate_project_tree_sync : EntryList → List String → String → List String
  | .nil, _, _ => []
  | .cons (.file n _) rest, patterns, pre =>
      if should_ignore n patterns then generate_project_tree_sync rest patterns pre
      else (pre ++ n) :: generate_project_tree_sync rest patterns pre
  | .cons (.dir n cs) rest, patterns, pre =>
      if should_ignore n patterns then generate_project_tree_sync rest patterns pre
      else (pre ++ n) ::
        (generate_project_tree_sync cs patterns (pre ++ "|   ") ++
          generate_project_tree_sync rest patterns pre)

/-- Embedding of the `async` variant `generate_project_tree` as it
actually behaves at runtime: its loop header iterates with `async for`
over the coroutine object returned by the wrapped `os.scandir`, and a
coroutine has no `__aiter__`, so every call raises a `TypeError` before a
single entry is yielded (and `aiofiles.os` is not even imported by
`import aiofiles`, which raises an `AttributeError` first on some
versions).  The function therefore never produces a tree line; the raise
is unconditional, independent of the snapshot, patterns and indentation. -/
def generate_project_tree (entries : EntryList) (patterns : List String)
    (pre : String) : Except String (List String) :=
  .error "TypeError: async for requires an object with __aiter__ method, got coroutine"

/-! ### Records, service responses and the per-directory scan -/

/-- A persisted project record; Python's dict fields are modelled as
`Option`s (`none` = key absent). -/
structure Record where
  title : String
  directory : String
  summary : Option String := none
  tech_stack : Option String := none
  purpose : Option String := none
  error : Option String := none
deriving DecidableEq, Repr

/-- The `message` object of an Ollama chat response; `content` is optional
(`response.get('message', {}).get('content', ...)`). -/
structure OllamaMessage where
  content : Option String
deriving DecidableEq, Repr

/-- An Ollama chat response as consumed by `scan_directory`:
`response.get('message', {})`, `response.get('tech_stack', ...)` and
`response.get('purpose', ...)` are the only accesses, so only those keys
are modelled, each optional. -/
structure OllamaResponse where
  message : Option OllamaMessage
  tech_stack : Option String
  purpose : Option String
deriving DecidableEq, Repr

/-- External side effects of `scan_directory`, recorded in order:
temporary-file creation (`tempfile.NamedTemporaryFile(delete=False)`),
temporary-file removal (`os.remove(temp_file_path)`), and the chat call
to the model service with its full prompt. -/
inductive Event : Type where
  | tempCreate (path : String)
  | tempRemove (path : String)
  | chatCall (prompt : String)
deriving DecidableEq, Repr

/-- Text written to (and later read back from) the temporary file: each
tree line followed by a newline. -/
def tempFileText (tree : List String) : String :=
  String.join (tree.map (fun line => line ++ "\n"))

/-- The prompt sent to the model service (the f-string of the source). -/
def promptFor (readme treeText : String) : String :=
  "Analyze the following project description and provide a summary including project name, technology stack, and its purpose:\n"
    ++ readme
    ++ "\n\nAdditionally, here is the project's directory structure:\n"
    ++ treeText

/-- The record built in the `except Exception` handler of
`scan_directory`. -/
def errorRecord (directory msg : String) : Record :=
  { title := basename directory, directory := directory,
    error := some ("An error occurred: " ++ msg) }

/-- The record returned when no description file was found. -/
def notFoundRecord (directory : String) : Record :=
  { title := basename directory, directory := directory,
    error := some "README or similar file not found" }

/-- Embedding of `scan_directory`.  Inputs: the directory's path and
snapshot, the chat oracle (the model-service call, which may raise), and
the name the OS hands out for the temporary file.  Output: the record and
the trace of external side effects, in program order.  Any raise inside
the body lands in the `except` handler, which builds an error record;
effects performed before the raise stay in the trace. -/
def scan_directory (directory : String) (entries : EntryList)
    (chat : String → Except String OllamaResponse) (tmpName : String) :
    Record × List Event :=
  match get_gitignore_patterns entries with
  | .error e => (errorRecord directory e, [])
  | .ok patterns =>
    let tree := generate_project_tree_sync entries patterns ""
    let treeText := tempFileText tree
    match read_project_info entries with
    | .error e => (errorRecord directory e, [Event.tempCreate tmpName])
    | .ok none => (notFoundRecord directory, [Event.tempCreate tmpName])
    | .ok (some content) =>
      if content = "" then (notFoundRecord directory, [Event.tempCreate tmpName])
      else
        match chat (promptFor content treeText) with
        | .error e =>
          (errorRecord directory e,
           [Event.tempCreate tmpName, Event.chatCall (promptFor content treeText)])
        | .ok r =>
          ({ title := basename directory, directory := directory,
             summary := some ((r.message.bind OllamaMessage.content).getD "No summary provided"),
             tech_stack := some (r.tech_stack.getD "No tech stack identified"),
             purpose := some (r.purpose.getD "No purpose identified") },
           [Event.tempCreate tmpName, Event.chatCall (promptFor content treeText),
            Event.tempRemove tmpName])

/-! ### JSON store and orchestrator -/

/-- The JSON store file: `none` when the file does not exist, otherwise
the array it holds. -/
abbrev Store := Option (List Record)

/-- The load step of `update_json`: parse the file when it exists,
otherwise start from the empty array. -/
def loadOrEmpty (st : Store) : List Record := st.getD []

/-- Embedding of `update_json`: load (or start empty), append the one new
record in memory, rewrite the whole file. -/
def update_json (st : Store) (r : Record) : Store :=
  some (loadOrEmpty st ++ [r])

/-- The store reset at the start of `scan_project_directories`: with
`append=False` any pre-existing store file is deleted; with `append=True`
it is kept. -/
def initialStore (append : Bool) (st : Store) : Store :=
  if append then st else none

/-- The immediate subdirectories of the parent, in enumeration order, each
with its joined path and snapshot (`os.scandir` filtered by
`entry.is_dir()`). -/
def projectDirectories (parent : String) : EntryList → List (String × EntryList)
  | .nil => []
  | .cons (.file _ _) rest => projectDirectories parent rest
  | .cons (.dir n cs) rest => (joinPath parent n, cs) :: projectDirectories parent rest

/-- Embedding of `scan_project_directories`.  `order` is the completion
order of the concurrently dispatched per-directory tasks
(`asyncio.as_completed`), a permutation of the subdirectory list; for
each completed task the orchestrator appends the record to `results` and
immediately persists it with `update_json`.  Returns the final store and
the collected results. -/
def scan_project_directories (order : List (String × EntryList))
    (chat : String → Except String OllamaResponse) (tmp : String → String)
    (append : Bool) (st : Store) : Store × List Record :=
  order.foldl
    (fun acc d =>
      let r := (scan_directory d.1 d.2 chat (tmp d.1)).1
      (update_json acc.1 r, acc.2 ++ [r]))
    (initialStore append st, [])

/-! ### Derived notions used to state the claims -/

/-- Remove from a snapshot, recursively, every entry whose bare name
matches an ignore pattern, together with its whole subtree. -/
def pruneEntries (patterns : List String) : EntryList → EntryList
  | .nil => .nil
  | .cons (.file n c) rest =>
      if should_ignore n patterns then pruneEntries patterns rest
      else .cons (.file n c) (pruneEntries patterns rest)
  | .cons (.dir n cs) rest =>
      if should_ignore n patterns then pruneEntries patterns rest
      else .cons (.dir n (pruneEntries patterns cs)) (pruneEntries patterns rest)

/-- Does a snapshot contain, at any depth, no entry whose bare name
matches an ignore pattern? -/
def allClean (patterns : List String) : EntryList → Bool
  | .nil => true
  | .cons (.file n _) rest => !should_ignore n patterns && allClean patterns rest
  | .cons (.dir n cs) rest =>
      !should_ignore n patterns && allClean patterns cs && allClean patterns rest

/-- The ignore-pattern list as the spec describes it: in file order,
exactly the stripped non-empty lines of the file that are not comment
lines (a comment line is one that starts with `#`). -/
def gitignorePatternsSpec (content : String) : List String :=
  (splitLinesChars content.data).filterMap (fun l =>
    if pyStrip l = [] ∨ startsWithHash l = true then none
    else some (String.mk (pyStrip l)))

/-! ### Concrete sample inputs used by the witnesses -/

/-- A directory with no entries at all (so no description file). -/
def sampleEmptyDir : EntryList := .nil

/-- A directory with a single non-empty `README.md`. -/
def sampleReadmeDir : EntryList := .cons (.file "README.md" (.ok "hi")) .nil

/-- The text of a sample `.gitignore`. -/
def sampleGitignoreText : String := "node_modules\n# c\n\n*.log\n  # x\n"

/-- A directory holding the sample `.gitignore`. -/
def sampleGitignoreDir : EntryList :=
  .cons (.file ".gitignore" (.ok sampleGitignoreText)) .nil

/-- A parent snapshot with two immediate subdirectories and one plain
file. -/
def sampleParent : EntryList :=
  .cons (.dir "a" .nil) (.cons (.dir "b" .nil) (.cons (.file "f" (.ok "")) .nil))

/-- A second parent snapshot with one immediate subdirectory. -/
def sampleParent2 : EntryList := .cons (.dir "c" .nil) .nil

/-- A chat oracle answering with a response that carries none of the
fields `scan_directory` looks for. -/
def chatMissingFields : String → Except String OllamaResponse :=
  fun _ => .ok ⟨none, none, none⟩

/-- A chat oracle whose call raises. -/
def chatFails : String → Except String OllamaResponse := fun _ => .error "boom"

/-- A chat oracle for runs that never reach the model call. -/
def chatUnused : String → Except String OllamaResponse := fun _ => .error "unused"

/-- A constant temporary-file naming scheme. -/
def sampleTmp : String → String := fun _ => "tmp0"

/-! ### Theorems -/

theorem readFirst_none (entries : EntryList) :
    ∀ names : List String,
      names.all (fun n => (findFile entries n).isNone) = true →
      readFirst entries names = .ok none := by
  intro names
  induction names with
  | nil => intro _; rfl
  | cons n rest ih =>
    intro h
    simp only [List.all_cons, Bool.and_eq_true] at h
    rw [readFirst]
    cases hf : findFile entries n with
    | none => exact ih h.2
    | some c => rw [hf] at h; simp at h

/-- Claim C1: for a directory in which none of the five candidate
description files exists (and whose ignore-file read does not raise),
`scan_directory` returns exactly the record
`{title = basename D, directory = D, error = "README or similar file not
found"}` — no summary, tech-stack or purpose field — and the effect trace
holds no chat call (only the temporary-file creation). -/
theorem claim_C1 (directory : String) (entries : EntryList)
    (chat : String → Except String OllamaResponse) (tmpName : String) (ps : List String)
    (hG : get_gitignore_patterns entries = .ok ps)
    (hA : possible_files.all (fun n => (findFile entries n).isNone) = true) :
    scan_directory directory entries chat tmpName
      = ({ title := basename directory, directory := directory,
           error := some "README or similar file not found" },
         [Event.tempCreate tmpName]) := by
  have hR : read_project_info entries = .ok none := readFirst_none entries possible_files hA
  simp [scan_directory, hG, hR, notFoundRecord]

/-- Witness for C1 at a concrete empty directory. -/
theorem claim_C1_witness :
    get_gitignore_patterns sampleEmptyDir = .ok [] ∧
    possible_files.all (fun n => (findFile sampleEmptyDir n).isNone) = true ∧
    scan_directory "parent/proj_b" sampleEmptyDir chatUnused "tmp0"
      = ({ title := "proj_b", directory := "parent/proj_b",
           error := some "README or similar file not found" },
         [Event.tempCreate "tmp0"]) :=
  ⟨rfl, rfl, by
    have h := claim_C1 "parent/proj_b" sampleEmptyDir chatUnused "tmp0" [] rfl rfl
    rw [h]
    rfl⟩

/-- Claim C4 (refuted, code bug): on the missing-description path the
temporary file is created but never removed before `scan_directory`
returns — the trace of a concrete description-less directory ends without
a `tempRemove` event. -/
theorem claim_C4_leak :
    (scan_directory "parent/proj_b" sampleEmptyDir chatUnused "tmp0").2
      = [Event.tempCreate "tmp0"] ∧
    Event.tempRemove "tmp0" ∉
      (scan_directory "parent/proj_b" sampleEmptyDir chatUnused "tmp0").2 := by
  constructor
  · rfl
  · decide

/-- Claim C6: every record returned by `scan_directory` carries
`title = basename D` and `directory = D`, and exactly one payload shape:
either summary, tech-stack and purpose with no error field, or an error
field with none of the three. -/
theorem claim_C6 (directory : String) (entries : EntryList)
    (chat : String → Except String OllamaResponse) (tmpName : String) :
    (scan_directory directory entries chat tmpName).1.title = basename directory ∧
    (scan_directory directory entries chat tmpName).1.directory = directory ∧
    (((scan_directory directory entries chat tmpName).1.error = none ∧
      ((scan_directory directory entries chat tmpName).1.summary).isSome = true ∧
      ((scan_directory directory entries chat tmpName).1.tech_stack).isSome = true ∧
      ((scan_directory directory entries chat tmpName).1.purpose).isSome = true) ∨
     (((scan_directory directory entries chat tmpName).1.error).isSome = true ∧
      (scan_directory directory entries chat tmpName).1.summary = none ∧
      (scan_directory directory entries chat tmpName).1.tech_stack = none ∧
      (scan_directory directory entries chat tmpName).1.purpose = none)) := by
  cases hG : get_gitignore_patterns entries with
  | error e => simp [scan_directory, hG, errorRecord]
  | ok ps =>
    cases hR : read_project_info entries with
    | error e => simp [scan_directory, hG, hR, errorRecord]
    | ok c =>
      cases c with
      | none => simp [scan_directory, hG, hR, notFoundRecord]
      | some content =>
        by_cases hc : content = ""
        · simp [scan_directory, hG, hR, hc, notFoundRecord]
        · cases hchat : chat (promptFor content
              (tempFileText (generate_project_tree_sync entries ps ""))) with
          | error e => simp [scan_directory, hG, hR, hc, hchat, errorRecord]
          | ok r => simp [scan_directory, hG, hR, hc, hchat]

/-- Claim C7: whenever some step of a directory's processing raises — the
ignore-file read, the description read, or the model-service call —
`scan_directory` does not propagate the exception but returns the record
whose error field carries the exception's text (prefixed
"An error occurred: "), with no summary, tech-stack or purpose field. -/
theorem claim_C7 (directory : String) (entries : EntryList)
    (chat : String → Except String OllamaResponse) (tmpName : String) (e : String)
    (h : get_gitignore_patterns entries = .error e ∨
         ((∃ ps, get_gitignore_patterns entries = .ok ps) ∧
           read_project_info entries = .error e) ∨
         (∃ ps content, get_gitignore_patterns entries = .ok ps ∧
           read_project_info entries = .ok (some content) ∧ content ≠ "" ∧
           chat (promptFor content
             (tempFileText (generate_project_tree_sync entries ps ""))) = .error e)) :
    (scan_directory directory entries chat tmpName).1
      = { title := basename directory, directory := directory,
          error := some ("An error occurred: " ++ e) } := by
  rcases h with hG | ⟨⟨ps, hG⟩, hR⟩ | ⟨ps, content, hG, hR, hc, hchat⟩
  · simp [scan_directory, hG, errorRecord]
  · simp [scan_directory, hG, hR, errorRecord]
  · simp [scan_directory, hG, hR, hc, hchat, errorRecord]

/-- Witness for C7 at a concrete directory whose model call raises. -/
theorem claim_C7_witness :
    read_project_info sampleReadmeDir = .ok (some "hi") ∧
    (scan_directory "p/d" sampleReadmeDir chatFails "tmp0").1
      = { title := "d", directory := "p/d",
          error := some ("An error occurred: " ++ "boom") } :=
  ⟨rfl, by
    have h := claim_C7 "p/d" sampleReadmeDir chatFails "tmp0" "boom"
      (Or.inr (Or.inr ⟨[], "hi", rfl, rfl, by decide, rfl⟩))
    rw [h]
    rfl⟩

/-- Claim C10: when the description file is present and non-empty and the
model-service response lacks the nested message/content field or the
top-level tech-stack/purpose fields, `scan_directory` still returns a
success record (no error field) whose missing fields are the fixed
placeholder strings. -/
theorem claim_C10 (directory : String) (entries : EntryList)
    (chat : String → Except String OllamaResponse) (tmpName : String)
    (ps : List String) (content : String) (r : OllamaResponse)
    (hG : get_gitignore_patterns entries = .ok ps)
    (hR : read_project_info entries = .ok (some content))
    (hc : content ≠ "")
    (hchat : chat (promptFor content
        (tempFileText (generate_project_tree_sync entries ps ""))) = .ok r) :
    (scan_directory directory entries chat tmpName).1.error = none ∧
    (r.message.bind OllamaMessage.content = none →
      (scan_directory directory entries chat tmpName).1.summary
        = some "No summary provided") ∧
    (r.tech_stack = none →
      (scan_directory directory entries chat tmpName).1.tech_stack
        = some "No tech stack identified") ∧
    (r.purpose = none →
      (scan_directory directory entries chat tmpName).1.purpose
        = some "No purpose identified") := by
  refine ⟨?_, ?_, ?_, ?_⟩
  · simp [scan_directory, hG, hR, hc, hchat]
  · intro hm; simp [scan_directory, hG, hR, hc, hchat, hm]
  · intro ht; simp [scan_directory, hG, hR, hc, hchat, ht]
  · intro hp; simp [scan_directory, hG, hR, hc, hchat, hp]

/-- Witness for C10 at a concrete directory whose model response carries
none of the expected fields. -/
theorem claim_C10_witness :
    read_project_info sampleReadmeDir = .ok (some "hi") ∧
    (scan_directory "p/d" sampleReadmeDir chatMissingFields "tmp0").1.error = none ∧
    (scan_directory "p/d" sampleReadmeDir chatMissingFields "tmp0").1.summary
      = some "No summary provided" ∧
    (scan_directory "p/d" sampleReadmeDir chatMissingFields "tmp0").1.tech_stack
      = some "No tech stack identified" ∧
    (scan_directory "p/d" sampleReadmeDir chatMissingFields "tmp0").1.purpose
      = some "No purpose identified" := by
  have h := claim_C10 "p/d" sampleReadmeDir chatMissingFields "tmp0" [] "hi"
    ⟨none, none, none⟩ rfl rfl (by decide) rfl
  exact ⟨rfl, h.1, h.2.1 rfl, h.2.2.1 rfl, h.2.2.2 rfl⟩

theorem filter_map_eq_spec (lines : List (List Char)) :
    (lines.filter (fun l => !(pyStrip l).isEmpty && !startsWithHash l)).map
        (fun l => String.mk (pyStrip l))
      = lines.filterMap (fun l =>
          if pyStrip l = [] ∨ startsWithHash l = true then none
          else some (String.mk (pyStrip l))) := by
  induction lines with
  | nil => rfl
  | cons l rest ih =>
    by_cases h1 : pyStrip l = []
    · simp [List.filter_cons, List.filterMap_cons, h1, ih]
    · by_cases h2 : startsWithHash l = true
      · simp [List.filter_cons, List.filterMap_cons, h1, h2, ih]
      · simp [List.filter_cons, List.filterMap_cons, h1, h2, ih,
              List.isEmpty_iff]

/-- Claim C8: `get_gitignore_patterns` returns the empty sequence when the
directory has no `.gitignore` file, and otherwise (when the read does not
raise) exactly the stripped non-empty non-comment lines of the file, in
file order. -/
theorem claim_C8 (entries : EntryList) :
    (findFile entries ".gitignore" = none →
      get_gitignore_patterns entries = .ok []) ∧
    (∀ c, findFile entries ".gitignore" = some (.ok c) →
      get_gitignore_patterns entries = .ok (gitignorePatternsSpec c)) := by
  constructor
  · intro h
    simp [get_gitignore_patterns, h]
  · intro c hc
    simp [get_gitignore_patterns, hc, gitignorePatternsSpec, filter_map_eq_spec]

/-- Witness for C8 at a concrete `.gitignore`; note the line `"  # x"`
(whitespace before `#`) is not a comment line and yields the pattern
`"# x"`. -/
theorem claim_C8_witness :
    findFile sampleGitignoreDir ".gitignore" = some (.ok sampleGitignoreText) ∧
    get_gitignore_patterns sampleGitignoreDir
      = .ok (gitignorePatternsSpec sampleGitignoreText) ∧
    gitignorePatternsSpec sampleGitignoreText = ["node_modules", "*.log", "# x"] :=
  ⟨rfl, (claim_C8 sampleGitignoreDir).2 sampleGitignoreText rfl, rfl⟩

/-- Claim C9: in replace mode the store file is reset so that the loader
sees the empty array before the first record is written; in append mode
the previous store is kept; and every record completion loads the
existing array, extends it by the one record in memory, and rewrites the
whole file. -/
theorem claim_C9 :
    (∀ st : Store, loadOrEmpty (initialStore false st) = []) ∧
    (∀ st : Store, initialStore true st = st) ∧
    (∀ (st : Store) (r : Record), update_json st r = some (loadOrEmpty st ++ [r])) :=
  ⟨fun _ => rfl, fun _ => rfl, fun _ _ => rfl⟩

theorem store_foldl (chat : String → Except String OllamaResponse)
    (tmp : String → String) (order : List (String × EntryList)) :
    ∀ p : Store × List Record,
      loadOrEmpty (order.foldl
          (fun acc d =>
            let r := (scan_directory d.1 d.2 chat (tmp d.1)).1
            (update_json acc.1 r, acc.2 ++ [r])) p).1
        = loadOrEmpty p.1
            ++ order.map (fun d => (scan_directory d.1 d.2 chat (tmp d.1)).1) := by
  induction order with
  | nil => intro p; simp
  | cons d rest ih =>
    intro p
    rw [List.foldl_cons, ih]
    simp [update_json, loadOrEmpty]

theorem scan_store_spec (chat : String → Except String OllamaResponse)
    (tmp : String → String) (order : List (String × EntryList))
    (append : Bool) (st : Store) :
    loadOrEmpty (scan_project_directories order chat tmp append st).1
      = loadOrEmpty (initialStore append st)
          ++ order.map (fun d => (scan_directory d.1 d.2 chat (tmp d.1)).1) := by
  rw [scan_project_directories]
  exact store_foldl chat tmp order (initialStore append st, [])

/-- Claim C5: two replace-mode runs over the same parent leave the store
with exactly one record per immediate subdirectory; a replace-mode run
over a parent with N1 subdirectories followed by an append-mode run over
a parent with N2 subdirectories leaves exactly N1+N2 records.  The
`order` arguments are the completion orders of the concurrently scanned
subdirectories, permutations of the parent's subdirectory lists. -/
theorem claim_C5 (parent : String) (entries : EntryList)
    (chat : String → Except String OllamaResponse) (tmp : String → String)
    (st : Store) (order1 order2 : List (String × EntryList))
    (h1 : order1.Perm (projectDirectories parent entries))
    (h2 : order2.Perm (projectDirectories parent entries)) :
    (loadOrEmpty (scan_project_directories order2 chat tmp false
        (scan_project_directories order1 chat tmp false st).1).1).length
      = (projectDirectories parent entries).length ∧
    ∀ (parent2 : String) (entries2 : EntryList)
      (order3 : List (String × EntryList)),
      order3.Perm (projectDirectories parent2 entries2) →
      (loadOrEmpty (scan_project_directories order3 chat tmp true
          (scan_project_directories order1 chat tmp false st).1).1).length
        = (projectDirectories parent entries).length
            + (projectDirectories parent2 entries2).length := by
  constructor
  · rw [scan_store_spec]
    simp [initialStore, loadOrEmpty, h2.length_eq]
  · intro parent2 entries2 order3 h3
    rw [scan_store_spec]
    have hinit : initialStore true ((scan_project_directories order1 chat tmp false st).1)
        = (scan_project_directories order1 chat tmp false st).1 := rfl
    rw [hinit, scan_store_spec]
    simp [initialStore, loadOrEmpty, h1.length_eq, h3.length_eq]

/-- Witness for C5 at concrete parents with two and one subdirectories. -/
theorem claim_C5_witness :
    projectDirectories "p" sampleParent
      = [("p/a", EntryList.nil), ("p/b", EntryList.nil)] ∧
    projectDirectories "q" sampleParent2 = [("q/c", EntryList.nil)] ∧
    (loadOrEmpty (scan_project_directories (projectDirectories "p" sampleParent)
        chatUnused sampleTmp false
        (scan_project_directories (projectDirectories "p" sampleParent)
          chatUnused sampleTmp false none).1).1).length
      = (projectDirectories "p" sampleParent).length ∧
    (loadOrEmpty (scan_project_directories (projectDirectories "q" sampleParent2)
        chatUnused sampleTmp true
        (scan_project_directories (projectDirectories "p" sampleParent)
          chatUnused sampleTmp false none).1).1).length
      = (projectDirectories "p" sampleParent).length
          + (projectDirectories "q" sampleParent2).length :=
  ⟨rfl, rfl,
   (claim_C5 "p" sampleParent chatUnused sampleTmp none
      (projectDirectories "p" sampleParent) (projectDirectories "p" sampleParent)
      (List.Perm.refl _) (List.Perm.refl _)).1,
   (claim_C5 "p" sampleParent chatUnused sampleTmp none
      (projectDirectories "p" sampleParent) (projectDirectories "p" sampleParent)
      (List.Perm.refl _) (List.Perm.refl _)).2 "q" sampleParent2
      (projectDirectories "q" sampleParent2) (List.Perm.refl _)⟩

theorem should_ignore_nil (n : String) : should_ignore n [] = false := rfl

theorem prune_tree (patterns : List String) :
    ∀ (es : EntryList) (pre : String),
      generate_project_tree_sync es patterns pre
        = generate_project_tree_sync (pruneEntries patterns es) [] pre
  | .nil, _ => rfl
  | .cons (.file n c) rest, pre => by
    by_cases h : should_ignore n patterns
    · simp [generate_project_tree_sync, pruneEntries, h,
            prune_tree patterns rest pre]
    · simp [generate_project_tree_sync, pruneEntries, h, should_ignore_nil,
            prune_tree patterns rest pre]
  | .cons (.dir n cs) rest, pre => by
    by_cases h : should_ignore n patterns
    · simp [generate_project_tree_sync, pruneEntries, h,
            prune_tree patterns rest pre]
    · simp [generate_project_tree_sync, pruneEntries, h, should_ignore_nil,
            prune_tree patterns cs (pre ++ "|   "),
            prune_tree patterns rest pre]

theorem prune_clean (patterns : List String) :
    ∀ es : EntryList, allClean patterns (pruneEntries patterns es) = true
  | .nil => rfl
  | .cons (.file n c) rest => by
    by_cases h : should_ignore n patterns <;>
      simp [pruneEntries, allClean, h, prune_clean patterns rest]
  | .cons (.dir n cs) rest => by
    by_cases h : should_ignore n patterns <;>
      simp [pruneEntries, allClean, h, prune_clean patterns cs,
            prune_clean patterns rest]

/-- Claim C2: the tree built under ignore patterns equals the tree of the
snapshot from which every entry whose bare name matches a pattern — and
with it its whole subtree — has been removed, and that pruned snapshot
contains no matching entry at any depth: no emitted line corresponds to a
matched entry or to anything inside a matched directory's subtree. -/
theorem claim_C2 (patterns : List String) (pre : String) (entries : EntryList) :
    generate_project_tree_sync entries patterns pre
      = generate_project_tree_sync (pruneEntries patterns entries) [] pre ∧
    allClean patterns (pruneEntries patterns entries) = true :=
  ⟨prune_tree patterns entries pre, prune_clean patterns entries⟩

/-- Claim C3 (refuted, code bug): the asynchronous tree builder never
produces a sequence of lines — every call raises before yielding an
entry — so on a concrete one-file snapshot it produces no output while
the synchronous builder produces the (non-empty) tree; the two variants
do not produce identical output. -/
theorem claim_C3_async_raises :
    generate_project_tree sampleReadmeDir [] ""
      = .error "TypeError: async for requires an object with __aiter__ method, got coroutine" ∧
    generate_project_tree_sync sampleReadmeDir [] "" = ["README.md"] :=
  ⟨rfl, rfl⟩

end FindProjects
